import Mathlib

/-!
Shallow embedding of the centralized event manager
(`src/libafl/src/events/centralized.rs`) and of the staged-restart
scaffolding (`src/libafl/src/stages/mod.rs`) of this repository, together
with theorems settling the frozen claims about them.

Machine integers are modelled as `Nat`, with an explicit `% 2^32` where the
source truncates (`as u32`).  Fallible Rust code (`Result<T, Error>`)
becomes `Except CErr T`; code that mutates state through `&mut` and can
also fail becomes a function returning the pair of an `Except` result and
the final state.  External collaborators (the LLMP transport, postcard
serialization, the gzip codec, the inner event manager, the fuzzer) are
parameters of the embedded functions, exactly as they are only reached
through trait calls in the source.
-/

namespace LibAFL

/-- The error kinds of `libafl::Error` that the embedded code can produce. -/
inductive CErr where
  /-- `Error::illegal_state` -/
  | illegalState
  /-- postcard / serde serialization or deserialization failure -/
  | serialize
  /-- `Error::unknown` (illegal message in `handle_in_main`) -/
  | unknownEvent
  /-- `Error::shutting_down` -/
  | shuttingDown
  /-- `Error::key_not_found` (missing named metadata) -/
  | keyNotFound
  /-- a Rust panic: a failed `assert!` or a reached `unreachable!` -/
  | panicked
  deriving Repr, DecidableEq

/-- Modelled from the spec: the `Event` sum type lives in `events/mod.rs`,
which is not under `src/`; §3 of the spec lists the variants
(`NewTestcase`, `UpdateExecStats`, and `Objective`, `Log`, `CustomBuf`
as opaque housekeeping variants).  The fields of `NewTestcase` and
`UpdateExecStats` are exactly those matched by the source patterns in
`CentralizedEventManager::fire` and `handle_in_main`.  `I` is the input
type, `C` the `EventConfig` type (the inner manager's configuration type,
also external to `src/`). -/
inductive Event (I C : Type) where
  | newTestcase (input : I) (clientConfig : C) (exitKind : Nat) (corpusSize : Nat)
      (observersBuf : Option (List Nat)) (time : Nat) (executions : Nat)
      (forwardId : Option Nat) : Event I C
  | updateExecStats (time : Nat) (executions : Nat) : Event I C
  | objective (objectiveSize : Nat) : Event I C
  | log (severity : Nat) (message : String) : Event I C
  | customBuf (bufTag : String) (buf : List Nat) : Event I C
  deriving Repr, DecidableEq

/-- `const _LLMP_TAG_TO_MAIN: Tag = Tag(0x3453453)` -/
def LLMP_TAG_TO_MAIN : Nat := 0x3453453

/-- `libafl_bolts::llmp::LLMP_FLAG_COMPRESSED` (bit 1 of the flags word). -/
def LLMP_FLAG_COMPRESSED : Nat := 1

/-- `libafl_bolts::llmp::LLMP_FLAG_INITIALIZED` (the zero flag word). -/
def LLMP_FLAG_INITIALIZED : Nat := 0

/-- `BrokerEventResult` from `events/mod.rs`: what the broker does with one event. -/
inductive BrokerEventResult where
  | forward
  | handled
  deriving Repr, DecidableEq

/-- `llmp::LlmpMsgHookResult`: the decision the message hook hands back
to the transport.  `forwardToClients` makes the transport broadcast the
original message bytes untouched (the hook has no way to alter them);
`handled` consumes the message at the broker. -/
inductive LlmpMsgHookResult where
  | handled
  | forwardToClients
  deriving Repr, DecidableEq

/-- `CentralizedLlmpEventBroker::handle_in_broker`: forward exactly the
`NewTestcase` variant, consume everything else.  Always `Ok` in the
source (`clippy::unnecessary_wraps`). -/
def handle_in_broker (I C : Type) (_clientId : Nat) (event : Event I C) :
    Except CErr BrokerEventResult :=
  match event with
  | .newTestcase _ _ _ _ _ _ _ _ => .ok .forward
  | _ => .ok .handled

/-- The per-message dispatch closure of
`CentralizedLlmpEventBroker::broker_loop` (both the tight-poll and the
timeout variant run the same body on an arriving message).
`decompress` stands for `GzipCompressor::decompress`, `decode` for
`postcard::from_bytes::<Event<I>>`; both are external to `src/` and so
are parameters. -/
def broker_dispatch {I C : Type}
    (decompress : List Nat → Except CErr (List Nat))
    (decode : List Nat → Except CErr (Event I C))
    (clientId tag flags : Nat) (msg : List Nat) :
    Except CErr LlmpMsgHookResult :=
  if tag == LLMP_TAG_TO_MAIN then
    (if flags &&& LLMP_FLAG_COMPRESSED == LLMP_FLAG_COMPRESSED then
        decompress msg
      else
        .ok msg).bind fun eventBytes =>
    (decode eventBytes).bind fun event =>
    match handle_in_broker I C clientId event with
    | .ok .forward => .ok .forwardToClients
    | .ok .handled => .ok .handled
    | .error e => .error e
  else
    .ok .forwardToClients

/-- The observable effects of one `CentralizedEventManager::fire` call:
the messages pushed to the centralized broker (`forward_to_main`,
pairing the LLMP tag with the event), and the events delegated to
`inner.fire`, in order. -/
structure FireTrace (I C : Type) where
  forwarded : List (Nat × Event I C)
  innerFired : List (Event I C)
  deriving Repr, DecidableEq

/-- `CentralizedEventManager::fire` (`events/centralized.rs:513`).
`isMain` is `self.is_main`; `innerMgrId` is `self.inner.mgr_id().0`
(a `usize`; the source truncates it with `as u32` when building the
`ClientId` stored into `forward_id`).  The transport send and the inner
fire are modelled as trace entries. -/
def CentralizedEventManager.fire {I C : Type}
    (isMain : Bool) (innerMgrId : Nat) (event : Event I C) : FireTrace I C :=
  if !isMain then
    -- secondary node
    let (event, is_tc, should_be_forwarded) :=
      match event with
      | .newTestcase input clientConfig exitKind corpusSize observersBuf time executions
          _forwardId =>
          (Event.newTestcase input clientConfig exitKind corpusSize observersBuf time
            executions (some (innerMgrId % 2 ^ 32)), true, true)
      | .updateExecStats time executions =>
          (Event.updateExecStats time executions, false, true)
      | e => (e, false, false)
    if should_be_forwarded then
      if is_tc then
        -- early return: sent to the centralized broker only, not the main broker
        { forwarded := [(LLMP_TAG_TO_MAIN, event)], innerFired := [] }
      else
        { forwarded := [(LLMP_TAG_TO_MAIN, event)], innerFired := [event] }
    else
      { forwarded := [], innerFired := [event] }
  else
    { forwarded := [], innerFired := [event] }

/-- The fuzzer calls a `handle_in_main` invocation makes, with the
`send_events` flag each call receives.  `executeAndProcess` records the
raw `observers_buf` bytes whose deserialization produced the observers
argument. -/
inductive FuzzerCall (I : Type) where
  | executeAndProcess (input : I) (observersBuf : List Nat) (sendEvents : Bool)
  | evaluateInputWithObservers (input : I) (sendEvents : Bool)
  deriving Repr, DecidableEq

/-- The observable outcome of one `handle_in_main` call: the fuzzer calls
made and the events fired into the inner (main-broker-facing) manager. -/
structure MainHandleOutcome (I C : Type) where
  calls : List (FuzzerCall I)
  innerFired : List (Event I C)
  deriving Repr, DecidableEq

/-- `CentralizedEventManager::handle_in_main` (`events/centralized.rs:796`).
External collaborators are parameters: `matchWith` is
`EventConfig::match_with`, `selfConfig` is `self.configuration()`
(delegated to the inner manager), `deserObs b` tells whether
`postcard::from_bytes::<E::Observers>(b)` succeeds, and `execRes` /
`evalRes` give the `(ExecuteInputResult, Option<CorpusId>)` pair returned
by `fuzzer.execute_and_process` (fed the input and the deserialized
observers) resp. `fuzzer.evaluate_input_with_observers`.  The source
reads `res.1`, the corpus-id component, which is `Prod.snd` here. -/
def handle_in_main {I C : Type}
    (matchWith : C → C → Bool) (selfConfig : C)
    (deserObs : List Nat → Bool)
    (execRes : I → List Nat → Nat × Option Nat)
    (evalRes : I → Nat × Option Nat)
    (event : Event I C) : Except CErr (MainHandleOutcome I C) :=
  match event with
  | .newTestcase input clientConfig exitKind corpusSize observersBuf time executions
      forwardId =>
    if matchWith clientConfig selfConfig && observersBuf.isSome then
      let buf := observersBuf.getD []
      if deserObs buf then
        let res := execRes input buf
        let fired :=
          match res.2 with
          | some _ =>
              [Event.newTestcase input clientConfig exitKind corpusSize observersBuf
                time executions forwardId]
          | none => []
        .ok { calls := [.executeAndProcess input buf false], innerFired := fired }
      else
        .error .serialize
    else
      let res := evalRes input
      let fired :=
        match res.2 with
        | some _ =>
            [Event.newTestcase input clientConfig exitKind corpusSize observersBuf
              time executions forwardId]
        | none => []
      .ok { calls := [.evaluateInputWithObservers input false], innerFired := fired }
  | _ => .error .unknownEvent

/-- One message as handed out by
`LlmpClient::recv_buf_with_flags`: `(client_id, tag, flags, msg)`. -/
structure InMsg where
  clientId : Nat
  tag : Nat
  flags : Nat
  msg : List Nat
  deriving Repr, DecidableEq

/-- The body of the `while let` loop of
`CentralizedEventManager::receive_from_secondary` applied to one message
that passed the tag assertion and the self-id check: inflate if the
`COMPRESSED` flag is set, deserialize, hand to `handle_in_main`
(abstracted as `handle`, since its fuzzer side effects do not influence
the drain). -/
def process_one {I C : Type}
    (decompress : List Nat → Except CErr (List Nat))
    (decode : List Nat → Except CErr (Event I C))
    (handle : Nat → Event I C → Except CErr Unit)
    (m : InMsg) : Except CErr Unit :=
  (if m.flags &&& LLMP_FLAG_COMPRESSED == LLMP_FLAG_COMPRESSED then
      decompress m.msg
    else
      .ok m.msg).bind fun eventBytes =>
  (decode eventBytes).bind fun event =>
  handle m.clientId event

/-- `CentralizedEventManager::receive_from_secondary`
(`events/centralized.rs:751`): drain the pending queue of the centralized
LLMP client without blocking.  `selfId` is `self.client.sender().id()`.
The `assert!` on the tag is a panic, modelled as `CErr.panicked`.
Messages from `selfId` are skipped without being counted; every other
message is processed and counted; the count is returned when the queue
is empty. -/
def receive_from_secondary {I C : Type}
    (decompress : List Nat → Except CErr (List Nat))
    (decode : List Nat → Except CErr (Event I C))
    (handle : Nat → Event I C → Except CErr Unit)
    (selfId : Nat) : List InMsg → Except CErr Nat
  | [] => .ok 0
  | m :: rest =>
    if m.tag != LLMP_TAG_TO_MAIN then
      .error .panicked
    else if m.clientId == selfId then
      receive_from_secondary decompress decode handle selfId rest
    else
      (process_one decompress decode handle m).bind fun _ =>
      (receive_from_secondary decompress decode handle selfId rest).bind fun count =>
      .ok (count + 1)

/-!
### Staged work (`src/libafl/src/stages/mod.rs`)

`HasCurrentStage` is a trait on the state whose contract (per the
source doc comments) is that the state holds an `Option<StageId>` naming
the currently executing stage; `set_current_stage_idx` / `clear_stage` /
`current_stage_idx` are modelled as field accesses.  A `Stage` is an
arbitrary triple of fallible state transformers, so stage bodies may
themselves touch the stage index (as nested stage tuples do). -/

/-- State threaded through a stages-tuple traversal: the tracked
`Option<StageId>` plus an arbitrary payload `α` standing for everything
else in the fuzzer state. -/
structure TState (α : Type) where
  currentStageIdx : Option Nat
  user : α
  deriving Repr, DecidableEq

/-- A `Stage`, reduced to the three methods that `perform_restartable`
and `StagesTuple::perform_all` call.  `shouldRun` is
`Stage::restart_progress_should_run`, `perform` is `Stage::perform`,
`clearProgress` is `Stage::clear_restart_progress`. -/
structure MStage (α : Type) where
  shouldRun : TState α → Except CErr (Bool × TState α)
  perform : TState α → Except CErr (TState α)
  clearProgress : TState α → Except CErr (TState α)

/-- `Stage::perform_restartable`:
`if self.restart_progress_should_run(state)? { self.perform(...)?; }
self.clear_restart_progress(state)`. -/
def perform_restartable {α : Type} (stage : MStage α) (s : TState α) :
    Except CErr (TState α) :=
  (stage.shouldRun s).bind fun bs =>
  (if bs.1 then stage.perform bs.2 else .ok bs.2).bind fun s =>
  stage.clearProgress s

/-- `StagesTuple::perform_all` (`stages/mod.rs:142` for `()` and `:166`
for `(Head, Tail)`), on the list of stages standing for the static
tuple.  For the suffix `head :: tail`, `Self::LEN` is the length of this
suffix.  The `unreachable!` arm for `idx > LEN` is a panic. -/
def perform_all {α : Type} : List (MStage α) → TState α → Except CErr (TState α)
  | [], s =>
    match s.currentStageIdx with
    | some _ => .error .illegalState
    | none => .ok s
  | head :: tail, s =>
    match s.currentStageIdx with
    | some idx =>
      if idx < (head :: tail).length then
        -- do nothing; we are resuming
        perform_all tail s
      else if idx == (head :: tail).length then
        -- perform the stage, but don't set it
        (perform_restartable head s).bind fun s =>
        perform_all tail { s with currentStageIdx := none }
      else
        .error .panicked
    | none =>
      (perform_restartable head
          { s with currentStageIdx := some (head :: tail).length }).bind fun s =>
      perform_all tail { s with currentStageIdx := none }

/-!
### The retry restart helper (`src/libafl/src/stages/mod.rs:463`)

`HasNamedMetadata` keeps one `RetryRestartHelper` record per stage name;
the map is an association list here.  `HashSet<CorpusId>` becomes a
duplicate-free `List Nat` grown by `insert`-if-absent. -/

/-- `RetryRestartHelper { tries_remaining, skipped }`. -/
structure RetryRestartHelper where
  tries_remaining : Option Nat
  skipped : List Nat
  deriving Repr, DecidableEq

/-- `HashSet::insert`, on the list model. -/
def insertSkipped (c : Nat) (l : List Nat) : List Nat :=
  if c ∈ l then l else c :: l

/-- The slice of the fuzzer state the helper touches: the current corpus
id (`HasCurrentCorpusId`) and the named-metadata map
(`HasNamedMetadata`), keyed by stage name and modelled as a partial
function. -/
structure RState where
  currentCorpusId : Option Nat
  namedMetadata : String → Option RetryRestartHelper

/-- Lookup in the named-metadata map. -/
def RState.lookupMeta (s : RState) (name : String) : Option RetryRestartHelper :=
  s.namedMetadata name

/-- Store (insert or overwrite) an entry of the named-metadata map. -/
def RState.insertMeta (s : RState) (name : String) (md : RetryRestartHelper) : RState :=
  { s with
    namedMetadata := fun n => if n == name then some md else s.namedMetadata n }

/-- `RetryRestartHelper::restart_progress_should_run`
(`stages/mod.rs:474`).  Returns the `Result<bool>` together with the
state after the call (the source mutates through `&mut`; on the
corpus-id error nothing has been touched yet, while on the
`checked_sub` underflow error the `named_metadata_or_insert_with`
insertion has already happened). -/
def restart_progress_should_run (s : RState) (stageName : String) (maxRetries : Nat) :
    Except CErr Bool × RState :=
  match s.currentCorpusId with
  | none => (.error .illegalState, s)
  | some corpusIdx =>
    let initial_tries_remaining := maxRetries + 1
    let md := (s.lookupMeta stageName).getD
      { tries_remaining := some initial_tries_remaining, skipped := [] }
    let s := s.insertMeta stageName md
    match md.tries_remaining.getD initial_tries_remaining with
    | 0 =>
      -- `checked_sub(1)` on 0: attempted further retries with none remaining
      (.error .illegalState, s)
    | tries_remaining + 1 =>
      let md := { md with tries_remaining := some tries_remaining }
      if tries_remaining == 0 then
        let md := { md with skipped := insertSkipped corpusIdx md.skipped }
        (.ok false, s.insertMeta stageName md)
      else if corpusIdx ∈ md.skipped then
        -- skip this testcase, we already retried it often enough
        (.ok false, s.insertMeta stageName md)
      else
        (.ok true, s.insertMeta stageName md)

/-- `RetryRestartHelper::clear_restart_progress` (`stages/mod.rs:518`):
`state.named_metadata_mut::<Self>(stage.name())?.tries_remaining = None`.
A missing entry is a key-not-found error. -/
def clear_restart_progress (s : RState) (stageName : String) :
    Except CErr Unit × RState :=
  match s.lookupMeta stageName with
  | none => (.error .keyNotFound, s)
  | some md => (.ok (), s.insertMeta stageName { md with tries_remaining := none })

/-- One helper invocation in a fuzzing session: `shouldRun` first sets
the state's current corpus id (the corpus entry the scheduler picked for
this round) and then calls `restart_progress_should_run`; `clearOp`
calls `clear_restart_progress`. -/
inductive SessionOp where
  | shouldRun (corpus : Option Nat) (name : String) (maxRetries : Nat)
  | clearOp (name : String)
  deriving Repr, DecidableEq

/-- Run a session of helper invocations, collecting for every
`shouldRun` step the stage name, the corpus id current at the call, and
the returned `Result<bool>`. -/
def runSession : List SessionOp → RState →
    List (String × Option Nat × Except CErr Bool) × RState
  | [], s => ([], s)
  | SessionOp.shouldRun corpus name maxRetries :: ops, s =>
    let s1 : RState := { s with currentCorpusId := corpus }
    let rest := runSession ops (restart_progress_should_run s1 name maxRetries).2
    ((name, corpus, (restart_progress_should_run s1 name maxRetries).1) :: rest.1,
      rest.2)
  | SessionOp.clearOp name :: ops, s =>
    runSession ops (clear_restart_progress s name).2

/-- `c` is recorded in the `skipped` set of the `RetryRestartHelper`
metadata stored under `name`. -/
def RState.inSkipped (s : RState) (name : String) (c : Nat) : Prop :=
  ∃ md, s.lookupMeta name = some md ∧ c ∈ md.skipped

/-- The metadata shapes reachable for a stage whose helper calls all use
`max_retries = 0`: no record yet, or a record whose `tries_remaining` is
`None` (right after a `clear_restart_progress`) or `Some 0` (right after
a `restart_progress_should_run` call). -/
def RState.zeroRetryShape (s : RState) (name : String) : Prop :=
  s.lookupMeta name = none ∨
    ∃ md, s.lookupMeta name = some md ∧
      (md.tries_remaining = none ∨ md.tries_remaining = some 0)

/-- Discriminator for the `NewTestcase` variant. -/
def Event.isNewTestcase {I C : Type} : Event I C → Bool
  | .newTestcase _ _ _ _ _ _ _ _ => true
  | _ => false

/-- The two distinct identifiers a secondary `CentralizedEventManager`
holds: `innerMgrId` is `self.inner.mgr_id().0`, the identifier of the
wrapped inner (main-broker-facing) manager, and `centralizedClientId` is
`self.client.sender().id()`, the client id assigned by the centralized
broker — the id under which this secondary's messages arrive at the main
evaluator.  Nothing in the source ties the two together. -/
structure SecondaryIds where
  innerMgrId : Nat
  centralizedClientId : Nat
  deriving Repr, DecidableEq

/-!
## Theorems for the claims
-/

/-- C1: on a secondary centralized manager (`is_main = false`), `fire`
forwards exactly the `NewTestcase` and `UpdateExecStats` variants to the
centralized broker under `TAG_TO_MAIN`; after forwarding a `NewTestcase`
it returns without calling `inner.fire`, while a forwarded
`UpdateExecStats` heartbeat and every non-forwarded variant are still
delegated to `inner.fire`. -/
theorem secondary_fire_routing {I C : Type} :
    (∀ (mgrId : Nat) (input : I) (cc : C) (ek cs : Nat) (ob : Option (List Nat))
        (t ex : Nat) (fid : Option Nat),
      CentralizedEventManager.fire false mgrId
          (Event.newTestcase input cc ek cs ob t ex fid) =
        { forwarded := [(LLMP_TAG_TO_MAIN,
            Event.newTestcase input cc ek cs ob t ex (some (mgrId % 2 ^ 32)))],
          innerFired := [] }) ∧
    (∀ (mgrId t ex : Nat),
      CentralizedEventManager.fire (I := I) (C := C) false mgrId
          (Event.updateExecStats t ex) =
        { forwarded := [(LLMP_TAG_TO_MAIN, Event.updateExecStats t ex)],
          innerFired := [Event.updateExecStats t ex] }) ∧
    (∀ (mgrId os : Nat),
      CentralizedEventManager.fire (I := I) (C := C) false mgrId (Event.objective os) =
        { forwarded := [], innerFired := [Event.objective os] }) ∧
    (∀ (mgrId sev : Nat) (message : String),
      CentralizedEventManager.fire (I := I) (C := C) false mgrId
          (Event.log sev message) =
        { forwarded := [], innerFired := [Event.log sev message] }) ∧
    (∀ (mgrId : Nat) (bufTag : String) (buf : List Nat),
      CentralizedEventManager.fire (I := I) (C := C) false mgrId
          (Event.customBuf bufTag buf) =
        { forwarded := [], innerFired := [Event.customBuf bufTag buf] }) := by
  refine ⟨?_, ?_, ?_, ?_, ?_⟩ <;> intros <;> rfl

/-- Helper: `broker_dispatch` on a `TAG_TO_MAIN` message whose inflation
and deserialization succeed reduces to `handle_in_broker`'s decision. -/
theorem broker_dispatch_to_main_eq {I C : Type}
    (decompress : List Nat → Except CErr (List Nat))
    (decode : List Nat → Except CErr (Event I C))
    (clientId flags : Nat) (msg eventBytes : List Nat) (ev : Event I C)
    (hbytes : (if flags &&& LLMP_FLAG_COMPRESSED == LLMP_FLAG_COMPRESSED then
        decompress msg
      else
        Except.ok msg) = Except.ok eventBytes)
    (hdec : decode eventBytes = .ok ev) :
    broker_dispatch decompress decode clientId LLMP_TAG_TO_MAIN flags msg =
      match handle_in_broker I C clientId ev with
      | .ok .forward => .ok .forwardToClients
      | .ok .handled => .ok .handled
      | .error e => .error e := by
  unfold broker_dispatch
  rw [if_pos (by simp), hbytes]
  simp only [Except.bind, hdec]

/-- C2: the centralized broker's per-message dispatch forwards every
message whose tag is not `TAG_TO_MAIN` to the clients unchanged (the
hook returns `ForwardToClients` without producing any replacement bytes,
so the transport broadcasts the original payload); a `TAG_TO_MAIN`
message is inflated if the `COMPRESSED` flag is set and deserialized as
an `Event`, after which a `NewTestcase` is forwarded to the clients and
every other variant is consumed (`Handled`). -/
theorem broker_dispatch_policy {I C : Type} :
    (∀ (decompress : List Nat → Except CErr (List Nat))
        (decode : List Nat → Except CErr (Event I C))
        (clientId tag flags : Nat) (msg : List Nat),
      tag ≠ LLMP_TAG_TO_MAIN →
      broker_dispatch decompress decode clientId tag flags msg =
        .ok .forwardToClients) ∧
    (∀ (decompress : List Nat → Except CErr (List Nat))
        (decode : List Nat → Except CErr (Event I C))
        (clientId flags : Nat) (msg eventBytes : List Nat) (ev : Event I C),
      (if flags &&& LLMP_FLAG_COMPRESSED == LLMP_FLAG_COMPRESSED then
          decompress msg
        else
          Except.ok msg) = .ok eventBytes →
      decode eventBytes = .ok ev →
      ev.isNewTestcase = true →
      broker_dispatch decompress decode clientId LLMP_TAG_TO_MAIN flags msg =
        .ok .forwardToClients) ∧
    (∀ (decompress : List Nat → Except CErr (List Nat))
        (decode : List Nat → Except CErr (Event I C))
        (clientId flags : Nat) (msg eventBytes : List Nat) (ev : Event I C),
      (if flags &&& LLMP_FLAG_COMPRESSED == LLMP_FLAG_COMPRESSED then
          decompress msg
        else
          Except.ok msg) = .ok eventBytes →
      decode eventBytes = .ok ev →
      ev.isNewTestcase = false →
      broker_dispatch decompress decode clientId LLMP_TAG_TO_MAIN flags msg =
        .ok .handled) := by
  refine ⟨?_, ?_, ?_⟩
  · intro decompress decode clientId tag flags msg htag
    unfold broker_dispatch
    rw [if_neg (by simpa using htag)]
  · intro decompress decode clientId flags msg eventBytes ev hbytes hdec hnt
    rw [broker_dispatch_to_main_eq decompress decode clientId flags msg eventBytes ev
      hbytes hdec]
    cases ev <;> simp_all [Event.isNewTestcase, handle_in_broker]
  · intro decompress decode clientId flags msg eventBytes ev hbytes hdec hnt
    rw [broker_dispatch_to_main_eq decompress decode clientId flags msg eventBytes ev
      hbytes hdec]
    cases ev <;> simp_all [Event.isNewTestcase, handle_in_broker]

/-- Witness for C2 at concrete inputs. -/
theorem broker_dispatch_policy_witness :
    ((7 : Nat) ≠ LLMP_TAG_TO_MAIN ∧
      broker_dispatch (I := Nat) (C := Nat) (fun b => .ok b)
          (fun _ => .ok (Event.updateExecStats 0 0)) 3 7 0 [1, 2] =
        .ok .forwardToClients) ∧
    (broker_dispatch (I := Nat) (C := Nat) (fun b => .ok b)
        (fun _ => .ok (Event.newTestcase 9 0 0 1 none 0 0 none)) 3
        LLMP_TAG_TO_MAIN 0 [1, 2] = .ok .forwardToClients) ∧
    (broker_dispatch (I := Nat) (C := Nat) (fun b => .ok b)
        (fun _ => .ok (Event.updateExecStats 0 0)) 3
        LLMP_TAG_TO_MAIN 0 [1, 2] = .ok .handled) := by
  have h := broker_dispatch_policy (I := Nat) (C := Nat)
  refine ⟨⟨by decide, ?_⟩, ?_, ?_⟩
  · exact h.1 (fun b => .ok b) (fun _ => .ok (Event.updateExecStats 0 0)) 3 7 0 [1, 2]
      (by decide)
  · exact h.2.1 (fun b => .ok b) (fun _ => .ok (Event.newTestcase 9 0 0 1 none 0 0 none))
      3 0 [1, 2] [1, 2] (Event.newTestcase 9 0 0 1 none 0 0 none) (by rfl) rfl rfl
  · exact h.2.2 (fun b => .ok b) (fun _ => .ok (Event.updateExecStats 0 0))
      3 0 [1, 2] [1, 2] (Event.updateExecStats 0 0) (by rfl) rfl rfl

/-- C3: `handle_in_main` on a received `NewTestcase` takes the trusted
path — deserializing `observers_buf` and calling
`fuzzer.execute_and_process` with `send_events = false` — exactly when
the sender's `client_config` matches the receiver's configuration and
`observers_buf` is `Some`; in every other case (config mismatch or
`observers_buf = None`) it calls
`fuzzer.evaluate_input_with_observers` with `send_events = false`,
re-executing the input locally. -/
theorem handle_in_main_path_selection {I C : Type} :
    (∀ (matchWith : C → C → Bool) (selfConfig : C) (deserObs : List Nat → Bool)
        (execRes : I → List Nat → Nat × Option Nat) (evalRes : I → Nat × Option Nat)
        (input : I) (cc : C) (ek cs : Nat) (buf : List Nat) (t ex : Nat)
        (fid : Option Nat),
      matchWith cc selfConfig = true →
      deserObs buf = true →
      (handle_in_main matchWith selfConfig deserObs execRes evalRes
          (Event.newTestcase input cc ek cs (some buf) t ex fid)).map
          MainHandleOutcome.calls =
        .ok [FuzzerCall.executeAndProcess input buf false]) ∧
    (∀ (matchWith : C → C → Bool) (selfConfig : C) (deserObs : List Nat → Bool)
        (execRes : I → List Nat → Nat × Option Nat) (evalRes : I → Nat × Option Nat)
        (input : I) (cc : C) (ek cs : Nat) (ob : Option (List Nat)) (t ex : Nat)
        (fid : Option Nat),
      (matchWith cc selfConfig && ob.isSome) = false →
      (handle_in_main matchWith selfConfig deserObs execRes evalRes
          (Event.newTestcase input cc ek cs ob t ex fid)).map
          MainHandleOutcome.calls =
        .ok [FuzzerCall.evaluateInputWithObservers input false]) := by
  constructor
  · intro matchWith selfConfig deserObs execRes evalRes input cc ek cs buf t ex fid
      hmatch hdeser
    cases hres : (execRes input buf).2 <;>
      simp [handle_in_main, hmatch, hdeser, hres, Except.map]
  · intro matchWith selfConfig deserObs execRes evalRes input cc ek cs ob t ex fid
      hcond
    cases hres : (evalRes input).2 <;>
      simp [handle_in_main, hcond, hres, Except.map]

/-- Witness for C3 at concrete inputs. -/
theorem handle_in_main_path_selection_witness :
    ((fun (a b : Nat) => a == b) 0 0 = true ∧
      (fun (_ : List Nat) => true) [5] = true ∧
      (handle_in_main (I := Nat) (fun a b => a == b) 0 (fun _ => true)
          (fun _ _ => (0, some 1)) (fun _ => (0, none))
          (Event.newTestcase 9 0 0 1 (some [5]) 2 3 none)).map
          MainHandleOutcome.calls =
        .ok [FuzzerCall.executeAndProcess 9 [5] false]) ∧
    (((fun (a b : Nat) => a == b) 1 0 && (none : Option (List Nat)).isSome) = false ∧
      (handle_in_main (I := Nat) (fun a b => a == b) 0 (fun _ => true)
          (fun _ _ => (0, some 1)) (fun _ => (0, none))
          (Event.newTestcase 9 1 0 1 none 2 3 none)).map
          MainHandleOutcome.calls =
        .ok [FuzzerCall.evaluateInputWithObservers 9 false]) := by
  have h := handle_in_main_path_selection (I := Nat) (C := Nat)
  refine ⟨⟨rfl, rfl, ?_⟩, ⟨rfl, ?_⟩⟩
  · exact h.1 (fun a b => a == b) 0 (fun _ => true) (fun _ _ => (0, some 1))
      (fun _ => (0, none)) 9 0 0 1 [5] 2 3 none rfl rfl
  · exact h.2 (fun a b => a == b) 0 (fun _ => true) (fun _ _ => (0, some 1))
      (fun _ => (0, none)) 9 1 0 1 none 2 3 none rfl

/-- C4: if evaluation of a received `NewTestcase` in `handle_in_main`
returns `Some` corpus id, the main manager fires a `NewTestcase` with
exactly the received field values into its inner manager; if evaluation
returns `None`, `inner.fire` is not called at all.  Both evaluation
paths are covered. -/
theorem handle_in_main_refire {I C : Type} :
    (∀ (matchWith : C → C → Bool) (selfConfig : C) (deserObs : List Nat → Bool)
        (execRes : I → List Nat → Nat × Option Nat) (evalRes : I → Nat × Option Nat)
        (input : I) (cc : C) (ek cs : Nat) (buf : List Nat) (t ex : Nat)
        (fid : Option Nat) (j : Nat),
      matchWith cc selfConfig = true →
      deserObs buf = true →
      (execRes input buf).2 = some j →
      (handle_in_main matchWith selfConfig deserObs execRes evalRes
          (Event.newTestcase input cc ek cs (some buf) t ex fid)).map
          MainHandleOutcome.innerFired =
        .ok [Event.newTestcase input cc ek cs (some buf) t ex fid]) ∧
    (∀ (matchWith : C → C → Bool) (selfConfig : C) (deserObs : List Nat → Bool)
        (execRes : I → List Nat → Nat × Option Nat) (evalRes : I → Nat × Option Nat)
        (input : I) (cc : C) (ek cs : Nat) (buf : List Nat) (t ex : Nat)
        (fid : Option Nat),
      matchWith cc selfConfig = true →
      deserObs buf = true →
      (execRes input buf).2 = none →
      (handle_in_main matchWith selfConfig deserObs execRes evalRes
          (Event.newTestcase input cc ek cs (some buf) t ex fid)).map
          MainHandleOutcome.innerFired = .ok []) ∧
    (∀ (matchWith : C → C → Bool) (selfConfig : C) (deserObs : List Nat → Bool)
        (execRes : I → List Nat → Nat × Option Nat) (evalRes : I → Nat × Option Nat)
        (input : I) (cc : C) (ek cs : Nat) (ob : Option (List Nat)) (t ex : Nat)
        (fid : Option Nat) (j : Nat),
      (matchWith cc selfConfig && ob.isSome) = false →
      (evalRes input).2 = some j →
      (handle_in_main matchWith selfConfig deserObs execRes evalRes
          (Event.newTestcase input cc ek cs ob t ex fid)).map
          MainHandleOutcome.innerFired =
        .ok [Event.newTestcase input cc ek cs ob t ex fid]) ∧
    (∀ (matchWith : C → C → Bool) (selfConfig : C) (deserObs : List Nat → Bool)
        (execRes : I → List Nat → Nat × Option Nat) (evalRes : I → Nat × Option Nat)
        (input : I) (cc : C) (ek cs : Nat) (ob : Option (List Nat)) (t ex : Nat)
        (fid : Option Nat),
      (matchWith cc selfConfig && ob.isSome) = false →
      (evalRes input).2 = none →
      (handle_in_main matchWith selfConfig deserObs execRes evalRes
          (Event.newTestcase input cc ek cs ob t ex fid)).map
          MainHandleOutcome.innerFired = .ok []) := by
  refine ⟨?_, ?_, ?_, ?_⟩
  · intro matchWith selfConfig deserObs execRes evalRes input cc ek cs buf t ex fid j
      hmatch hdeser hres
    simp [handle_in_main, hmatch, hdeser, hres, Except.map]
  · intro matchWith selfConfig deserObs execRes evalRes input cc ek cs buf t ex fid
      hmatch hdeser hres
    simp [handle_in_main, hmatch, hdeser, hres, Except.map]
  · intro matchWith selfConfig deserObs execRes evalRes input cc ek cs ob t ex fid j
      hcond hres
    simp [handle_in_main, hcond, hres, Except.map]
  · intro matchWith selfConfig deserObs execRes evalRes input cc ek cs ob t ex fid
      hcond hres
    simp [handle_in_main, hcond, hres, Except.map]

/-- Witness for C4 at concrete inputs. -/
theorem handle_in_main_refire_witness :
    ((handle_in_main (I := Nat) (fun a b => a == b) 0 (fun _ => true)
        (fun _ _ => (0, some 4)) (fun _ => (0, some 6))
        (Event.newTestcase 9 0 0 1 (some [5]) 2 3 (some 8))).map
        MainHandleOutcome.innerFired =
      .ok [Event.newTestcase 9 0 0 1 (some [5]) 2 3 (some 8)]) ∧
    ((handle_in_main (I := Nat) (fun a b => a == b) 0 (fun _ => true)
        (fun _ _ => (0, none)) (fun _ => (0, some 6))
        (Event.newTestcase 9 0 0 1 (some [5]) 2 3 (some 8))).map
        MainHandleOutcome.innerFired = .ok []) ∧
    ((handle_in_main (I := Nat) (fun a b => a == b) 0 (fun _ => true)
        (fun _ _ => (0, some 4)) (fun _ => (0, some 6))
        (Event.newTestcase 9 1 0 1 none 2 3 (some 8))).map
        MainHandleOutcome.innerFired =
      .ok [Event.newTestcase 9 1 0 1 none 2 3 (some 8)]) ∧
    ((handle_in_main (I := Nat) (fun a b => a == b) 0 (fun _ => true)
        (fun _ _ => (0, some 4)) (fun _ => (0, none))
        (Event.newTestcase 9 1 0 1 none 2 3 (some 8))).map
        MainHandleOutcome.innerFired = .ok []) := by
  have h := handle_in_main_refire (I := Nat) (C := Nat)
  refine ⟨?_, ?_, ?_, ?_⟩
  · exact h.1 (fun a b => a == b) 0 (fun _ => true) (fun _ _ => (0, some 4))
      (fun _ => (0, some 6)) 9 0 0 1 [5] 2 3 (some 8) 4 rfl rfl rfl
  · exact h.2.1 (fun a b => a == b) 0 (fun _ => true) (fun _ _ => (0, none))
      (fun _ => (0, some 6)) 9 0 0 1 [5] 2 3 (some 8) rfl rfl rfl
  · exact h.2.2.1 (fun a b => a == b) 0 (fun _ => true) (fun _ _ => (0, some 4))
      (fun _ => (0, some 6)) 9 1 0 1 none 2 3 (some 8) 6 rfl rfl
  · exact h.2.2.2 (fun a b => a == b) 0 (fun _ => true) (fun _ _ => (0, some 4))
      (fun _ => (0, none)) 9 1 0 1 none 2 3 (some 8) rfl rfl

/-- C5: on the main manager, `receive_from_secondary` (the body of
`process` for `is_main = true`) drains the pending queue without
blocking: with an empty queue it returns `Ok 0` immediately, and when
every pending message carries `TAG_TO_MAIN` and every non-self message
processes successfully, messages whose `client_id` equals the manager's
own client id are skipped without being handled or counted, every other
message is handled and counted, and the call returns the number of
handled messages. -/
theorem receive_from_secondary_drain {I C : Type} :
    (∀ (decompress : List Nat → Except CErr (List Nat))
        (decode : List Nat → Except CErr (Event I C))
        (handle : Nat → Event I C → Except CErr Unit) (selfId : Nat),
      receive_from_secondary decompress decode handle selfId [] = .ok 0) ∧
    (∀ (decompress : List Nat → Except CErr (List Nat))
        (decode : List Nat → Except CErr (Event I C))
        (handle : Nat → Event I C → Except CErr Unit) (selfId : Nat)
        (queue : List InMsg),
      (∀ m ∈ queue, m.tag = LLMP_TAG_TO_MAIN) →
      (∀ m ∈ queue, m.clientId ≠ selfId →
        process_one decompress decode handle m = .ok ()) →
      receive_from_secondary decompress decode handle selfId queue =
        .ok (queue.filter (fun m => m.clientId != selfId)).length) := by
  constructor
  · intro decompress decode handle selfId
    rfl
  · intro decompress decode handle selfId queue
    induction queue with
    | nil => intro _ _; rfl
    | cons m rest ih =>
      intro htag hproc
      have hmtag : m.tag = LLMP_TAG_TO_MAIN := htag m (List.mem_cons_self m rest)
      have hrest :
          receive_from_secondary decompress decode handle selfId rest =
            .ok (rest.filter (fun m => m.clientId != selfId)).length :=
        ih (fun x hx => htag x (List.mem_cons_of_mem m hx))
          (fun x hx => hproc x (List.mem_cons_of_mem m hx))
      unfold receive_from_secondary
      rw [if_neg (by simp [hmtag])]
      by_cases hself : m.clientId = selfId
      · rw [if_pos (by simp [hself]), hrest]
        simp [List.filter, hself]
      · rw [if_neg (by simp [hself]),
          hproc m (List.mem_cons_self m rest) hself]
        simp only [Except.bind, hrest]
        rw [List.filter_cons, if_pos (by simp [hself])]
        rfl

/-- Witness for C5 at concrete inputs: a queue holding one self message
(client id 3 = own id, skipped), one message from client 4 (counted),
and the empty-queue boundary case. -/
theorem receive_from_secondary_drain_witness :
    (receive_from_secondary (I := Nat) (C := Nat) (fun b => .ok b)
        (fun _ => .ok (Event.newTestcase 0 0 0 1 none 0 0 none))
        (fun _ _ => .ok ()) 3 [] = .ok 0) ∧
    (receive_from_secondary (I := Nat) (C := Nat) (fun b => .ok b)
        (fun _ => .ok (Event.newTestcase 0 0 0 1 none 0 0 none))
        (fun _ _ => .ok ()) 3
        [⟨3, LLMP_TAG_TO_MAIN, 0, [1]⟩, ⟨4, LLMP_TAG_TO_MAIN, 0, [2]⟩] =
      .ok 1) := by
  have h := receive_from_secondary_drain (I := Nat) (C := Nat)
  constructor
  · exact h.1 (fun b => .ok b) (fun _ => .ok (Event.newTestcase 0 0 0 1 none 0 0 none))
      (fun _ _ => .ok ()) 3
  · exact h.2 (fun b => .ok b) (fun _ => .ok (Event.newTestcase 0 0 0 1 none 0 0 none))
      (fun _ _ => .ok ()) 3
      [⟨3, LLMP_TAG_TO_MAIN, 0, [1]⟩, ⟨4, LLMP_TAG_TO_MAIN, 0, [2]⟩]
      (by intro m hm; fin_cases hm <;> rfl)
      (by intro m hm _; fin_cases hm <;> rfl)

/-- C6 counterexample: a concrete secondary whose inner (main-broker)
manager id is 1 while its own client id on the centralized transport is
2.  Firing a `NewTestcase` forwards it with `forward_id = Some 1` — the
inner manager's id — and not `Some 2`, the secondary's client identifier
under which the message arrives at the main evaluator.  The source
(`events/centralized.rs:533`) writes
`Some(ClientId(self.inner.mgr_id().0 as u32))`, not
`self.client.sender().id()`. -/
theorem forward_id_counterexample :
    (CentralizedEventManager.fire (I := Nat) (C := Nat) false
        (SecondaryIds.mk 1 2).innerMgrId
        (Event.newTestcase 0 0 0 1 none 0 0 none)).forwarded =
      [(LLMP_TAG_TO_MAIN, Event.newTestcase 0 0 0 1 none 0 0 (some 1))] ∧
    some (SecondaryIds.mk 1 2).centralizedClientId ≠ some 1 := by
  exact ⟨rfl, by decide⟩

/-- C6 amended: every `NewTestcase` forwarded by a secondary over the
centralized transport carries
`forward_id = Some(inner.mgr_id().0 as u32)` — the u32-truncated
identifier of the wrapped inner (main-broker-facing) manager — which
coincides with the secondary's client id on the centralized transport
only when those two identifiers happen to be equal. -/
theorem forward_id_is_inner_mgr_id {I C : Type} :
    ∀ (ids : SecondaryIds) (input : I) (cc : C) (ek cs : Nat)
      (ob : Option (List Nat)) (t ex : Nat) (fid : Option Nat),
      (CentralizedEventManager.fire false ids.innerMgrId
          (Event.newTestcase input cc ek cs ob t ex fid)).forwarded =
        [(LLMP_TAG_TO_MAIN,
          Event.newTestcase input cc ek cs ob t ex (some (ids.innerMgrId % 2 ^ 32)))] := by
  intro ids input cc ek cs ob t ex fid
  rfl

/-- C7: `StagesTuple::perform_all` resumes according to the persisted
stage index, which counts remaining tail length.  At each
`(Head, Tail)` position with `LEN` the length of this suffix:
`current_stage_idx = Some i` with `i < LEN` skips the head without
executing it (the traversal equals the traversal of the tail alone);
`Some LEN` performs the head restartably and then clears the index;
`None` sets the index to `LEN`, performs the head restartably, then
clears it; reaching the empty tuple with the index still `Some` is an
illegal-state error; and a traversal that completes without error
leaves `current_stage_idx() = None`. -/
theorem perform_all_resume {α : Type} :
    (∀ (head : MStage α) (tail : List (MStage α)) (s : TState α) (i : Nat),
      s.currentStageIdx = some i → i < (head :: tail).length →
      perform_all (head :: tail) s = perform_all tail s) ∧
    (∀ (head : MStage α) (tail : List (MStage α)) (s : TState α),
      s.currentStageIdx = some (head :: tail).length →
      perform_all (head :: tail) s =
        (perform_restartable head s).bind fun s2 =>
          perform_all tail { s2 with currentStageIdx := none }) ∧
    (∀ (head : MStage α) (tail : List (MStage α)) (s : TState α),
      s.currentStageIdx = none →
      perform_all (head :: tail) s =
        (perform_restartable head
            { s with currentStageIdx := some (head :: tail).length }).bind fun s2 =>
          perform_all tail { s2 with currentStageIdx := none }) ∧
    (∀ (s : TState α) (i : Nat),
      s.currentStageIdx = some i →
      perform_all ([] : List (MStage α)) s = .error .illegalState) ∧
    (∀ (stages : List (MStage α)) (s s2 : TState α),
      perform_all stages s = .ok s2 → s2.currentStageIdx = none) := by
  refine ⟨?_, ?_, ?_, ?_, ?_⟩
  · intro head tail s i hs hlt
    rw [perform_all, hs]
    simp only [hlt, if_pos]
  · intro head tail s hs
    rw [perform_all, hs]
    simp
  · intro head tail s hs
    rw [perform_all, hs]
  · intro s i hs
    rw [perform_all, hs]
  · intro stages
    induction stages with
    | nil =>
      intro s s2 h
      cases hs : s.currentStageIdx with
      | some i => rw [perform_all, hs] at h; exact absurd h (by simp)
      | none => rw [perform_all, hs] at h; cases h; exact hs
    | cons head tail ih =>
      intro s s2 h
      rw [perform_all] at h
      cases hs : s.currentStageIdx with
      | none =>
        simp only [hs] at h
        cases hpr : perform_restartable head
            { s with currentStageIdx := some (head :: tail).length } with
        | error e => rw [hpr] at h; exact absurd h (by simp [Except.bind])
        | ok s3 => rw [hpr] at h; exact ih _ _ h
      | some i =>
        simp only [hs] at h
        by_cases hlt : i < (head :: tail).length
        · rw [if_pos hlt] at h
          exact ih _ _ h
        · rw [if_neg hlt] at h
          by_cases heq : (i == (head :: tail).length) = true
          · rw [if_pos heq] at h
            cases hpr : perform_restartable head s with
            | error e => rw [hpr] at h; exact absurd h (by simp [Except.bind])
            | ok s3 => rw [hpr] at h; exact ih _ _ h
          · rw [if_neg heq] at h
            exact absurd h (by simp)

/-- Witness for C7 at concrete inputs, using a one-element tuple of the
stage that runs, increments the user payload, and clears nothing. -/
theorem perform_all_resume_witness :
    (perform_all
        [(⟨fun s => .ok (true, s), fun s => .ok { s with user := s.user + 1 },
            fun s => .ok s⟩ : MStage Nat)]
        { currentStageIdx := some 0, user := 5 } =
      perform_all [] { currentStageIdx := some 0, user := 5 }) ∧
    (perform_all
        [(⟨fun s => .ok (true, s), fun s => .ok { s with user := s.user + 1 },
            fun s => .ok s⟩ : MStage Nat)]
        { currentStageIdx := some 1, user := 5 } =
      (perform_restartable
          (⟨fun s => .ok (true, s), fun s => .ok { s with user := s.user + 1 },
            fun s => .ok s⟩ : MStage Nat)
          { currentStageIdx := some 1, user := 5 }).bind fun s2 =>
        perform_all [] { s2 with currentStageIdx := none }) ∧
    (perform_all
        [(⟨fun s => .ok (true, s), fun s => .ok { s with user := s.user + 1 },
            fun s => .ok s⟩ : MStage Nat)]
        { currentStageIdx := none, user := 5 } =
      (perform_restartable
          (⟨fun s => .ok (true, s), fun s => .ok { s with user := s.user + 1 },
            fun s => .ok s⟩ : MStage Nat)
          { currentStageIdx := some 1, user := 5 }).bind fun s2 =>
        perform_all [] { s2 with currentStageIdx := none }) ∧
    (perform_all ([] : List (MStage Nat)) { currentStageIdx := some 2, user := 5 } =
      .error .illegalState) ∧
    ((TState.mk none 6 : TState Nat).currentStageIdx = none) := by
  have h := perform_all_resume (α := Nat)
  refine ⟨?_, ?_, ?_, ?_, ?_⟩
  · exact h.1 _ [] { currentStageIdx := some 0, user := 5 } 0 rfl (by decide)
  · exact h.2.1 _ [] { currentStageIdx := some 1, user := 5 } rfl
  · exact h.2.2.1 _ [] { currentStageIdx := none, user := 5 } rfl
  · exact h.2.2.2.1 { currentStageIdx := some 2, user := 5 } 2 rfl
  · exact h.2.2.2.2
      [(⟨fun s => .ok (true, s), fun s => .ok { s with user := s.user + 1 },
          fun s => .ok s⟩ : MStage Nat)]
      { currentStageIdx := none, user := 5 } (TState.mk none 6) rfl

/-!
### Helper lemmas about the retry-helper state
-/

theorem lookupMeta_insertMeta_self (s : RState) (name : String)
    (md : RetryRestartHelper) :
    (s.insertMeta name md).lookupMeta name = some md := by
  simp [RState.insertMeta, RState.lookupMeta]

theorem lookupMeta_insertMeta_ne (s : RState) (stageName name : String)
    (md : RetryRestartHelper) (h : name ≠ stageName) :
    (s.insertMeta stageName md).lookupMeta name = s.lookupMeta name := by
  simp [RState.insertMeta, RState.lookupMeta, h]

theorem currentCorpusId_insertMeta (s : RState) (name : String)
    (md : RetryRestartHelper) :
    (s.insertMeta name md).currentCorpusId = s.currentCorpusId := rfl

theorem mem_insertSkipped_of_mem (c x : Nat) (l : List Nat) (h : c ∈ l) :
    c ∈ insertSkipped x l := by
  unfold insertSkipped
  split
  · exact h
  · exact List.mem_cons_of_mem x h

theorem mem_insertSkipped_self (c : Nat) (l : List Nat) : c ∈ insertSkipped c l := by
  unfold insertSkipped
  split
  · assumption
  · exact List.mem_cons_self c l

theorem inSkipped_insertMeta_of (s : RState) (stageName : String)
    (md md' : RetryRestartHelper) (name : String) (c : Nat)
    (h : s.inSkipped name c)
    (hlk : s.lookupMeta stageName = some md)
    (hsub : ∀ x, x ∈ md.skipped → x ∈ md'.skipped) :
    (s.insertMeta stageName md').inSkipped name c := by
  by_cases hn : name = stageName
  · subst hn
    obtain ⟨md₀, hlk₀, hmem⟩ := h
    rw [hlk₀] at hlk
    cases hlk
    exact ⟨md', lookupMeta_insertMeta_self s name md', hsub c hmem⟩
  · obtain ⟨md₀, hlk₀, hmem⟩ := h
    exact ⟨md₀, by rw [lookupMeta_insertMeta_ne s stageName name md' hn]; exact hlk₀,
      hmem⟩

theorem inSkipped_insertMeta_fresh (s : RState) (stageName : String)
    (md' : RetryRestartHelper) (name : String) (c : Nat)
    (h : s.inSkipped name c) (hlk : s.lookupMeta stageName = none) :
    (s.insertMeta stageName md').inSkipped name c := by
  by_cases hn : name = stageName
  · subst hn
    obtain ⟨md₀, hlk₀, _⟩ := h
    rw [hlk₀] at hlk
    cases hlk
  · obtain ⟨md₀, hlk₀, hmem⟩ := h
    exact ⟨md₀, by rw [lookupMeta_insertMeta_ne s stageName name md' hn]; exact hlk₀,
      hmem⟩

theorem inSkipped_insertMeta_getD (s : RState) (stageName : String)
    (d : RetryRestartHelper) (name : String) (c : Nat) (h : s.inSkipped name c) :
    (s.insertMeta stageName ((s.lookupMeta stageName).getD d)).inSkipped name c := by
  cases hlk : s.lookupMeta stageName with
  | none => exact inSkipped_insertMeta_fresh s stageName d name c h hlk
  | some md =>
    simp only [Option.getD_some]
    exact inSkipped_insertMeta_of s stageName md md name c h hlk (fun x hx => hx)

theorem shouldRun_eq_no_corpus (s : RState) (stageName : String) (mr : Nat)
    (hcc : s.currentCorpusId = none) :
    restart_progress_should_run s stageName mr = (.error .illegalState, s) := by
  unfold restart_progress_should_run
  rw [hcc]

theorem shouldRun_eq_underflow (s : RState) (stageName : String) (mr ci : Nat)
    (md : RetryRestartHelper) (hcc : s.currentCorpusId = some ci)
    (hmd : (s.lookupMeta stageName).getD
      { tries_remaining := some (mr + 1), skipped := [] } = md)
    (htr : md.tries_remaining.getD (mr + 1) = 0) :
    restart_progress_should_run s stageName mr =
      (.error .illegalState, s.insertMeta stageName md) := by
  unfold restart_progress_should_run
  rw [hcc]
  simp only [hmd, htr]

theorem shouldRun_eq_exhaust (s : RState) (stageName : String) (mr ci : Nat)
    (md : RetryRestartHelper) (hcc : s.currentCorpusId = some ci)
    (hmd : (s.lookupMeta stageName).getD
      { tries_remaining := some (mr + 1), skipped := [] } = md)
    (htr : md.tries_remaining.getD (mr + 1) = 1) :
    restart_progress_should_run s stageName mr =
      (.ok false, (s.insertMeta stageName md).insertMeta stageName
        { tries_remaining := some 0, skipped := insertSkipped ci md.skipped }) := by
  unfold restart_progress_should_run
  rw [hcc]
  simp only [hmd, htr]
  rfl

theorem shouldRun_eq_skip (s : RState) (stageName : String) (mr ci tr : Nat)
    (md : RetryRestartHelper) (hcc : s.currentCorpusId = some ci)
    (hmd : (s.lookupMeta stageName).getD
      { tries_remaining := some (mr + 1), skipped := [] } = md)
    (htr : md.tries_remaining.getD (mr + 1) = tr + 1) (h0 : tr ≠ 0)
    (hmem : ci ∈ md.skipped) :
    restart_progress_should_run s stageName mr =
      (.ok false, (s.insertMeta stageName md).insertMeta stageName
        { tries_remaining := some tr, skipped := md.skipped }) := by
  unfold restart_progress_should_run
  rw [hcc]
  simp only [hmd, htr, h0, hmem, reduceIte, beq_iff_eq, if_true, if_false]

theorem shouldRun_eq_go (s : RState) (stageName : String) (mr ci tr : Nat)
    (md : RetryRestartHelper) (hcc : s.currentCorpusId = some ci)
    (hmd : (s.lookupMeta stageName).getD
      { tries_remaining := some (mr + 1), skipped := [] } = md)
    (htr : md.tries_remaining.getD (mr + 1) = tr + 1) (h0 : tr ≠ 0)
    (hmem : ci ∉ md.skipped) :
    restart_progress_should_run s stageName mr =
      (.ok true, (s.insertMeta stageName md).insertMeta stageName
        { tries_remaining := some tr, skipped := md.skipped }) := by
  unfold restart_progress_should_run
  rw [hcc]
  simp only [hmd, htr, h0, hmem, reduceIte, beq_iff_eq, if_true, if_false]

theorem shouldRun_preserves_inSkipped (s : RState) (stageName : String) (mr : Nat)
    (name : String) (c : Nat) (h : s.inSkipped name c) :
    ((restart_progress_should_run s stageName mr).2).inSkipped name c := by
  cases hcc : s.currentCorpusId with
  | none => rw [shouldRun_eq_no_corpus s stageName mr hcc]; exact h
  | some ci =>
    have h1 : (s.insertMeta stageName ((s.lookupMeta stageName).getD
        { tries_remaining := some (mr + 1), skipped := [] })).inSkipped name c :=
      inSkipped_insertMeta_getD s stageName _ name c h
    have h1lk := lookupMeta_insertMeta_self s stageName ((s.lookupMeta stageName).getD
      { tries_remaining := some (mr + 1), skipped := [] })
    cases htr : ((s.lookupMeta stageName).getD
        { tries_remaining := some (mr + 1), skipped := [] }).tries_remaining.getD
        (mr + 1) with
    | zero =>
      rw [shouldRun_eq_underflow s stageName mr ci _ hcc rfl htr]
      exact h1
    | succ tr =>
      by_cases h0 : tr = 0
      · subst h0
        rw [shouldRun_eq_exhaust s stageName mr ci _ hcc rfl htr]
        exact inSkipped_insertMeta_of _ stageName _ _ name c h1 h1lk
          (fun x hx => mem_insertSkipped_of_mem x ci _ hx)
      · by_cases hmem : ci ∈ ((s.lookupMeta stageName).getD
            { tries_remaining := some (mr + 1), skipped := [] }).skipped
        · rw [shouldRun_eq_skip s stageName mr ci tr _ hcc rfl htr h0 hmem]
          exact inSkipped_insertMeta_of _ stageName _ _ name c h1 h1lk
            (fun x hx => hx)
        · rw [shouldRun_eq_go s stageName mr ci tr _ hcc rfl htr h0 hmem]
          exact inSkipped_insertMeta_of _ stageName _ _ name c h1 h1lk
            (fun x hx => hx)

theorem clear_preserves_inSkipped (s : RState) (stageName name : String) (c : Nat)
    (h : s.inSkipped name c) :
    ((clear_restart_progress s stageName).2).inSkipped name c := by
  unfold clear_restart_progress
  cases hlk : s.lookupMeta stageName with
  | none => exact h
  | some md =>
    exact inSkipped_insertMeta_of s stageName md
      { md with tries_remaining := none } name c h hlk (fun x hx => hx)

theorem shouldRun_skipped_not_true (s : RState) (name : String) (mr c : Nat)
    (hc : s.currentCorpusId = some c) (hsk : s.inSkipped name c) :
    (restart_progress_should_run s name mr).1 ≠ .ok true := by
  obtain ⟨md₀, hlk, hmem⟩ := hsk
  have hmd : (s.lookupMeta name).getD
      { tries_remaining := some (mr + 1), skipped := [] } = md₀ := by
    rw [hlk]; rfl
  cases htr : md₀.tries_remaining.getD (mr + 1) with
  | zero =>
    rw [shouldRun_eq_underflow s name mr c md₀ hc hmd htr]
    simp
  | succ tr =>
    by_cases h0 : tr = 0
    · subst h0
      rw [shouldRun_eq_exhaust s name mr c md₀ hc hmd htr]
      simp
    · rw [shouldRun_eq_skip s name mr c tr md₀ hc hmd htr h0 hmem]
      simp

theorem runSession_skipped_never_true :
    ∀ (ops : List SessionOp) (s : RState) (name : String) (c : Nat),
      s.inSkipped name c →
      ∀ e ∈ (runSession ops s).1, e.1 = name → e.2.1 = some c →
        e.2.2 ≠ Except.ok true := by
  intro ops
  induction ops with
  | nil =>
    intro s name c _ e he
    cases he
  | cons op rest ih =>
    intro s name c hsk e he hn hc
    cases op with
    | shouldRun corpus nm mr =>
      have hsk1 : (RState.mk corpus s.namedMetadata).inSkipped name c := hsk
      rw [runSession] at he
      simp only [List.mem_cons] at he
      cases he with
      | inl heq =>
        subst heq
        simp only at hn hc ⊢
        refine shouldRun_skipped_not_true _ nm mr c hc ?_
        rw [hn]
        exact hsk1
      | inr htail =>
        exact ih _ name c
          (shouldRun_preserves_inSkipped (RState.mk corpus s.namedMetadata) nm mr
            name c hsk1) e htail hn hc
    | clearOp nm =>
      rw [runSession] at he
      exact ih _ name c (clear_preserves_inSkipped s nm name c hsk) e he hn hc

theorem currentCorpusId_clear (s : RState) (name : String) :
    ((clear_restart_progress s name).2).currentCorpusId = s.currentCorpusId := by
  unfold clear_restart_progress
  cases hlk : s.lookupMeta name with
  | none => rfl
  | some md => rfl

theorem lookupMeta_clear_some (s : RState) (name : String) (md : RetryRestartHelper)
    (hlk : s.lookupMeta name = some md) :
    ((clear_restart_progress s name).2).lookupMeta name =
      some { md with tries_remaining := none } := by
  unfold clear_restart_progress
  rw [hlk]
  exact lookupMeta_insertMeta_self s name { md with tries_remaining := none }

theorem shouldRun_lookup_other (s : RState) (n : String) (mr : Nat) (name : String)
    (hne : name ≠ n) :
    ((restart_progress_should_run s n mr).2).lookupMeta name = s.lookupMeta name := by
  cases hcc : s.currentCorpusId with
  | none => rw [shouldRun_eq_no_corpus s n mr hcc]
  | some ci =>
    cases htr : ((s.lookupMeta n).getD
        { tries_remaining := some (mr + 1), skipped := [] }).tries_remaining.getD
        (mr + 1) with
    | zero =>
      rw [shouldRun_eq_underflow s n mr ci _ hcc rfl htr]
      exact lookupMeta_insertMeta_ne s n name _ hne
    | succ tr =>
      by_cases h0 : tr = 0
      · subst h0
        rw [shouldRun_eq_exhaust s n mr ci _ hcc rfl htr]
        rw [lookupMeta_insertMeta_ne _ n name _ hne,
          lookupMeta_insertMeta_ne s n name _ hne]
      · by_cases hmem : ci ∈ ((s.lookupMeta n).getD
            { tries_remaining := some (mr + 1), skipped := [] }).skipped
        · rw [shouldRun_eq_skip s n mr ci tr _ hcc rfl htr h0 hmem]
          rw [lookupMeta_insertMeta_ne _ n name _ hne,
            lookupMeta_insertMeta_ne s n name _ hne]
        · rw [shouldRun_eq_go s n mr ci tr _ hcc rfl htr h0 hmem]
          rw [lookupMeta_insertMeta_ne _ n name _ hne,
            lookupMeta_insertMeta_ne s n name _ hne]

theorem clear_lookup_other (s : RState) (n name : String) (hne : name ≠ n) :
    ((clear_restart_progress s n).2).lookupMeta name = s.lookupMeta name := by
  unfold clear_restart_progress
  cases hlk : s.lookupMeta n with
  | none => rfl
  | some md => exact lookupMeta_insertMeta_ne s n name _ hne

theorem zeroShape_call (s : RState) (name : String) (h : s.zeroRetryShape name) :
    (restart_progress_should_run s name 0).1 ≠ Except.ok true ∧
    ((restart_progress_should_run s name 0).2).zeroRetryShape name := by
  cases hcc : s.currentCorpusId with
  | none =>
    rw [shouldRun_eq_no_corpus s name 0 hcc]
    exact ⟨by simp, h⟩
  | some c =>
    rcases h with hlk | ⟨md, hlk, htries⟩
    · have hmd : (s.lookupMeta name).getD
          { tries_remaining := some (0 + 1), skipped := [] } =
          { tries_remaining := some 1, skipped := [] } := by rw [hlk]; rfl
      rw [shouldRun_eq_exhaust s name 0 c _ hcc hmd rfl]
      exact ⟨by simp, Or.inr ⟨_, lookupMeta_insertMeta_self _ name _, Or.inr rfl⟩⟩
    · have hmd : (s.lookupMeta name).getD
          { tries_remaining := some (0 + 1), skipped := [] } = md := by rw [hlk]; rfl
      rcases htries with hnone | hzero
      · have htr : md.tries_remaining.getD (0 + 1) = 1 := by rw [hnone]; rfl
        rw [shouldRun_eq_exhaust s name 0 c md hcc hmd htr]
        exact ⟨by simp, Or.inr ⟨_, lookupMeta_insertMeta_self _ name _, Or.inr rfl⟩⟩
      · have htr : md.tries_remaining.getD (0 + 1) = 0 := by rw [hzero]; rfl
        rw [shouldRun_eq_underflow s name 0 c md hcc hmd htr]
        exact ⟨by simp, Or.inr ⟨md, lookupMeta_insertMeta_self s name md,
          Or.inr hzero⟩⟩

theorem zeroShape_call_other (s : RState) (n : String) (mr : Nat) (name : String)
    (hne : name ≠ n) (h : s.zeroRetryShape name) :
    ((restart_progress_should_run s n mr).2).zeroRetryShape name := by
  unfold RState.zeroRetryShape
  rw [shouldRun_lookup_other s n mr name hne]
  exact h

theorem zeroShape_clear (s : RState) (n name : String) (h : s.zeroRetryShape name) :
    ((clear_restart_progress s n).2).zeroRetryShape name := by
  by_cases hne : name = n
  · subst hne
    unfold clear_restart_progress
    cases hlk : s.lookupMeta name with
    | none => exact h
    | some md =>
      exact Or.inr ⟨{ md with tries_remaining := none },
        lookupMeta_insertMeta_self s name _, Or.inl rfl⟩
  · unfold RState.zeroRetryShape
    rw [clear_lookup_other s n name hne]
    exact h

theorem runSession_zero_never_true :
    ∀ (ops : List SessionOp) (s : RState) (name : String),
      (∀ (corpus : Option Nat) (mr : Nat),
        SessionOp.shouldRun corpus name mr ∈ ops → mr = 0) →
      s.zeroRetryShape name →
      ∀ e ∈ (runSession ops s).1, e.1 = name → e.2.2 ≠ Except.ok true := by
  intro ops
  induction ops with
  | nil =>
    intro s name _ _ e he
    cases he
  | cons op rest ih =>
    intro s name hops hshape e he hn
    cases op with
    | shouldRun corpus nm mr =>
      have hshape1 : (RState.mk corpus s.namedMetadata).zeroRetryShape name := hshape
      rw [runSession] at he
      simp only [List.mem_cons] at he
      cases he with
      | inl heq =>
        subst heq
        simp only at hn ⊢
        have hmem : SessionOp.shouldRun corpus name mr ∈
            SessionOp.shouldRun corpus nm mr :: rest := by
          rw [hn]
          exact List.mem_cons_self _ _
        have hmr : mr = 0 := hops corpus mr hmem
        subst hmr
        rw [hn]
        exact (zeroShape_call (RState.mk corpus s.namedMetadata) name hshape1).1
      | inr htail =>
        have hops2 : ∀ (corpus2 : Option Nat) (mr2 : Nat),
            SessionOp.shouldRun corpus2 name mr2 ∈ rest → mr2 = 0 :=
          fun corpus2 mr2 hm => hops corpus2 mr2 (List.mem_cons_of_mem _ hm)
        by_cases hnm : name = nm
        · have hmr : mr = 0 := by
            refine hops corpus mr ?_
            rw [hnm]
            exact List.mem_cons_self _ _
          subst hmr
          refine ih _ name hops2 ?_ e htail hn
          rw [hnm] at hshape1 ⊢
          exact (zeroShape_call (RState.mk corpus s.namedMetadata) nm hshape1).2
        · exact ih _ name hops2
            (zeroShape_call_other (RState.mk corpus s.namedMetadata) nm mr name hnm
              hshape1) e htail hn
    | clearOp nm =>
      rw [runSession] at he
      exact ih _ name
        (fun corpus2 mr2 hm => hops corpus2 mr2 (List.mem_cons_of_mem _ hm))
        (zeroShape_clear s nm name hshape) e he hn

/-- C8 counterexample: with `max_retries = 2` and corpus id 7, four
consecutive calls of `RetryRestartHelper::restart_progress_should_run`
(no intervening `clear_restart_progress`) return
`true, true, false, Err(IllegalState)` — the fourth call hits the
`checked_sub` underflow and errors instead of returning `false` as the
claim states. -/
theorem retry_fourth_call_counterexample :
    (runSession
        [SessionOp.shouldRun (some 7) "st" 2, SessionOp.shouldRun (some 7) "st" 2,
          SessionOp.shouldRun (some 7) "st" 2, SessionOp.shouldRun (some 7) "st" 2]
        (RState.mk (some 7) (fun _ => none))).1 =
      [("st", some 7, Except.ok true), ("st", some 7, Except.ok true),
        ("st", some 7, Except.ok false),
        ("st", some 7, Except.error CErr.illegalState)] ∧
    (Except.error CErr.illegalState : Except CErr Bool) ≠ Except.ok false := by
  refine ⟨rfl, ?_⟩
  intro h
  exact Except.noConfusion h

/-- C8 (as amended): `tries_remaining` is lazily initialized to
`max_retries + 1` and decremented on every `Ok` call — including calls
for a corpus id already in `skipped`; when it reaches 0 the current
corpus id is recorded in `skipped` and `false` is returned; an id
already in `skipped` yields `false` (after decrementing, not before);
with `max_retries = 2`, three consecutive calls return
`true, true, false`, and a fourth consecutive call returns an
illegal-state error rather than `false`; once a corpus id is in
`skipped`, no later call of the helper for that id within the session
returns `true`. -/
theorem retry_restart_policy :
    (∀ (s : RState) (name : String) (mr c : Nat),
      mr ≠ 0 → s.currentCorpusId = some c → s.lookupMeta name = none →
      restart_progress_should_run s name mr =
        (.ok true,
          (s.insertMeta name { tries_remaining := some (mr + 1), skipped := [] }).insertMeta
            name { tries_remaining := some mr, skipped := [] })) ∧
    (∀ (s : RState) (name : String) (mr c tr : Nat) (md : RetryRestartHelper),
      s.currentCorpusId = some c → s.lookupMeta name = some md →
      md.tries_remaining = some (tr + 1) → tr ≠ 0 → c ∉ md.skipped →
      (restart_progress_should_run s name mr).1 = .ok true ∧
      ((restart_progress_should_run s name mr).2).lookupMeta name =
        some { tries_remaining := some tr, skipped := md.skipped }) ∧
    (∀ (s : RState) (name : String) (mr c : Nat) (md : RetryRestartHelper),
      s.currentCorpusId = some c → s.lookupMeta name = some md →
      md.tries_remaining = some 1 →
      (restart_progress_should_run s name mr).1 = .ok false ∧
      ((restart_progress_should_run s name mr).2).inSkipped name c) ∧
    (∀ (s : RState) (name : String) (mr c tr : Nat) (md : RetryRestartHelper),
      s.currentCorpusId = some c → s.lookupMeta name = some md →
      md.tries_remaining = some (tr + 1) → tr ≠ 0 → c ∈ md.skipped →
      (restart_progress_should_run s name mr).1 = .ok false ∧
      ((restart_progress_should_run s name mr).2).lookupMeta name =
        some { tries_remaining := some tr, skipped := md.skipped }) ∧
    (∀ (s : RState) (name : String) (mr c : Nat) (md : RetryRestartHelper),
      s.currentCorpusId = some c → s.lookupMeta name = some md →
      md.tries_remaining = some 0 →
      (restart_progress_should_run s name mr).1 = .error .illegalState) ∧
    (∀ (ops : List SessionOp) (s : RState) (name : String) (c : Nat),
      s.inSkipped name c →
      ∀ e ∈ (runSession ops s).1, e.1 = name → e.2.1 = some c →
        e.2.2 ≠ Except.ok true) := by
  refine ⟨?_, ?_, ?_, ?_, ?_, runSession_skipped_never_true⟩
  · intro s name mr c hmr hcc hlk
    have hmd : (s.lookupMeta name).getD
        { tries_remaining := some (mr + 1), skipped := [] } =
        { tries_remaining := some (mr + 1), skipped := [] } := by rw [hlk]; rfl
    exact shouldRun_eq_go s name mr c mr _ hcc hmd rfl hmr (List.not_mem_nil c)
  · intro s name mr c tr md hcc hlk htr h0 hmem
    have hmd : (s.lookupMeta name).getD
        { tries_remaining := some (mr + 1), skipped := [] } = md := by rw [hlk]; rfl
    rw [shouldRun_eq_go s name mr c tr md hcc hmd (by rw [htr]; rfl) h0 hmem]
    exact ⟨rfl, lookupMeta_insertMeta_self _ name _⟩
  · intro s name mr c md hcc hlk htr
    have hmd : (s.lookupMeta name).getD
        { tries_remaining := some (mr + 1), skipped := [] } = md := by rw [hlk]; rfl
    rw [shouldRun_eq_exhaust s name mr c md hcc hmd (by rw [htr]; rfl)]
    exact ⟨rfl, _, lookupMeta_insertMeta_self _ name _,
      mem_insertSkipped_self c md.skipped⟩
  · intro s name mr c tr md hcc hlk htr h0 hmem
    have hmd : (s.lookupMeta name).getD
        { tries_remaining := some (mr + 1), skipped := [] } = md := by rw [hlk]; rfl
    rw [shouldRun_eq_skip s name mr c tr md hcc hmd (by rw [htr]; rfl) h0 hmem]
    exact ⟨rfl, lookupMeta_insertMeta_self _ name _⟩
  · intro s name mr c md hcc hlk htr
    have hmd : (s.lookupMeta name).getD
        { tries_remaining := some (mr + 1), skipped := [] } = md := by rw [hlk]; rfl
    rw [shouldRun_eq_underflow s name mr c md hcc hmd (by rw [htr]; rfl)]

/-- Witness for C8 at concrete inputs. -/
theorem retry_restart_policy_witness :
    (restart_progress_should_run (RState.mk (some 7) (fun _ => none)) "st" 2 =
      (.ok true,
        ((RState.mk (some 7) (fun _ => none)).insertMeta "st"
            { tries_remaining := some 3, skipped := [] }).insertMeta "st"
          { tries_remaining := some 2, skipped := [] })) ∧
    ((restart_progress_should_run
        (RState.mk (some 7) (fun n => if n == "st" then
          some { tries_remaining := some 2, skipped := [] } else none)) "st" 2).1 =
      .ok true) ∧
    ((restart_progress_should_run
        (RState.mk (some 7) (fun n => if n == "st" then
          some { tries_remaining := some 1, skipped := [] } else none)) "st" 2).1 =
      .ok false) ∧
    ((restart_progress_should_run
        (RState.mk (some 7) (fun n => if n == "st" then
          some { tries_remaining := some 3, skipped := [7] } else none)) "st" 2).1 =
      .ok false) ∧
    ((restart_progress_should_run
        (RState.mk (some 7) (fun n => if n == "st" then
          some { tries_remaining := some 0, skipped := [7] } else none)) "st" 2).1 =
      .error .illegalState) ∧
    (∀ e ∈ (runSession [SessionOp.shouldRun (some 7) "st" 2]
        (RState.mk (some 7) (fun n => if n == "st" then
          some { tries_remaining := some 3, skipped := [7] } else none))).1,
      e.1 = "st" → e.2.1 = some 7 → e.2.2 ≠ Except.ok true) := by
  have h := retry_restart_policy
  refine ⟨?_, ?_, ?_, ?_, ?_, ?_⟩
  · exact h.1 (RState.mk (some 7) (fun _ => none)) "st" 2 7 (by decide) rfl rfl
  · exact (h.2.1 (RState.mk (some 7) (fun n => if n == "st" then
      some { tries_remaining := some 2, skipped := [] } else none)) "st" 2 7 1
      { tries_remaining := some 2, skipped := [] } rfl rfl rfl (by decide)
      (by simp)).1
  · exact (h.2.2.1 (RState.mk (some 7) (fun n => if n == "st" then
      some { tries_remaining := some 1, skipped := [] } else none)) "st" 2 7
      { tries_remaining := some 1, skipped := [] } rfl rfl rfl).1
  · exact (h.2.2.2.1 (RState.mk (some 7) (fun n => if n == "st" then
      some { tries_remaining := some 3, skipped := [7] } else none)) "st" 2 7 2
      { tries_remaining := some 3, skipped := [7] } rfl rfl rfl (by decide)
      (by simp)).1
  · exact h.2.2.2.2.1 (RState.mk (some 7) (fun n => if n == "st" then
      some { tries_remaining := some 0, skipped := [7] } else none)) "st" 2 7
      { tries_remaining := some 0, skipped := [7] } rfl rfl rfl
  · exact h.2.2.2.2.2 [SessionOp.shouldRun (some 7) "st" 2]
      (RState.mk (some 7) (fun n => if n == "st" then
        some { tries_remaining := some 3, skipped := [7] } else none)) "st" 7
      ⟨{ tries_remaining := some 3, skipped := [7] }, rfl, by simp⟩

/-- C9 counterexample: with `max_retries = 0`, a set corpus id, and no
prior metadata, the very first call of
`RetryRestartHelper::restart_progress_should_run` already returns
`Ok(false)` — not `Ok(true)` as the claim states: the lazy initial value
is `0 + 1 = 1`, the call decrements it to 0, records the corpus id in
`skipped` and returns `false`. -/
theorem retry_zero_counterexample :
    ((restart_progress_should_run (RState.mk (some 5) (fun _ => none)) "st" 0).1 =
      .ok false) ∧
    ((restart_progress_should_run (RState.mk (some 5) (fun _ => none)) "st" 0).1 ≠
      .ok true) := by
  refine ⟨rfl, ?_⟩
  intro h
  rw [show (restart_progress_should_run (RState.mk (some 5) (fun _ => none))
      "st" 0).1 = Except.ok false from rfl] at h
  simp at h

/-- C9 (as amended): with `max_retries = 0`, a current corpus id set and
no prior metadata for the stage, `restart_progress_should_run` returns
`false` already on the first call and inserts the corpus id into
`skipped`; a second consecutive call (no intervening clear) returns an
illegal-state error; the single call immediately following a
`clear_restart_progress` returns `false` again; and in any session
whose helper calls for this stage all use `max_retries = 0`, started
from a state whose metadata for the stage is absent or has
`tries_remaining` `None` or `Some 0`, no call for this stage ever
returns `true` — every call returns `false` or an illegal-state
error. -/
theorem retry_zero_retries :
    (∀ (s : RState) (name : String) (c : Nat),
      s.currentCorpusId = some c → s.lookupMeta name = none →
      (restart_progress_should_run s name 0).1 = .ok false ∧
      ((restart_progress_should_run s name 0).2).inSkipped name c) ∧
    (∀ (s : RState) (name : String) (c : Nat),
      s.currentCorpusId = some c → s.lookupMeta name = none →
      (restart_progress_should_run
        ((restart_progress_should_run s name 0).2) name 0).1 =
        .error .illegalState) ∧
    (∀ (s : RState) (name : String) (c : Nat),
      s.currentCorpusId = some c → s.lookupMeta name = none →
      (restart_progress_should_run
        ((clear_restart_progress
          ((restart_progress_should_run s name 0).2) name).2) name 0).1 =
        .ok false) ∧
    (∀ (ops : List SessionOp) (s : RState) (name : String),
      (∀ (corpus : Option Nat) (mr : Nat),
        SessionOp.shouldRun corpus name mr ∈ ops → mr = 0) →
      s.zeroRetryShape name →
      ∀ e ∈ (runSession ops s).1, e.1 = name → e.2.2 ≠ Except.ok true) := by
  have key : ∀ (s : RState) (name : String) (c : Nat),
      s.currentCorpusId = some c → s.lookupMeta name = none →
      restart_progress_should_run s name 0 =
        (.ok false, (s.insertMeta name
            { tries_remaining := some 1, skipped := [] }).insertMeta name
          { tries_remaining := some 0, skipped := insertSkipped c [] }) := by
    intro s name c hcc hlk
    have hmd : (s.lookupMeta name).getD
        { tries_remaining := some (0 + 1), skipped := [] } =
        { tries_remaining := some 1, skipped := [] } := by rw [hlk]; rfl
    exact shouldRun_eq_exhaust s name 0 c _ hcc hmd rfl
  refine ⟨?_, ?_, ?_, runSession_zero_never_true⟩
  · intro s name c hcc hlk
    rw [key s name c hcc hlk]
    exact ⟨rfl, _, lookupMeta_insertMeta_self _ name _, mem_insertSkipped_self c []⟩
  · intro s name c hcc hlk
    rw [key s name c hcc hlk]
    have hcc2 : ((s.insertMeta name
        { tries_remaining := some 1, skipped := [] }).insertMeta name
        { tries_remaining := some 0, skipped := insertSkipped c [] }).currentCorpusId =
        some c := hcc
    have hlk2 := lookupMeta_insertMeta_self
      (s.insertMeta name { tries_remaining := some 1, skipped := [] }) name
      { tries_remaining := some 0, skipped := insertSkipped c [] }
    have hmd : (((s.insertMeta name
        { tries_remaining := some 1, skipped := [] }).insertMeta name
        { tries_remaining := some 0, skipped := insertSkipped c [] }).lookupMeta
          name).getD { tries_remaining := some (0 + 1), skipped := [] } =
        { tries_remaining := some 0, skipped := insertSkipped c [] } := by
      rw [hlk2]
      rfl
    rw [shouldRun_eq_underflow _ name 0 c _ hcc2 hmd rfl]
  · intro s name c hcc hlk
    rw [key s name c hcc hlk]
    have hlk2 := lookupMeta_insertMeta_self
      (s.insertMeta name { tries_remaining := some 1, skipped := [] }) name
      { tries_remaining := some 0, skipped := insertSkipped c [] }
    have hlk3 := lookupMeta_clear_some _ name _ hlk2
    have hcc3 : (((clear_restart_progress ((s.insertMeta name
        { tries_remaining := some 1, skipped := [] }).insertMeta name
        { tries_remaining := some 0, skipped := insertSkipped c [] }) name).2)).currentCorpusId =
        some c := by
      rw [currentCorpusId_clear]
      exact hcc
    have hmd : ((((clear_restart_progress ((s.insertMeta name
        { tries_remaining := some 1, skipped := [] }).insertMeta name
        { tries_remaining := some 0, skipped := insertSkipped c [] }) name).2)).lookupMeta
          name).getD { tries_remaining := some (0 + 1), skipped := [] } =
        { tries_remaining := none, skipped := insertSkipped c [] } := by
      rw [hlk3]
      rfl
    rw [shouldRun_eq_exhaust _ name 0 c _ hcc3 hmd rfl]

/-- Witness for C9 at a concrete input. -/
theorem retry_zero_retries_witness :
    ((restart_progress_should_run (RState.mk (some 5) (fun _ => none)) "st" 0).1 =
        .ok false ∧
      ((restart_progress_should_run (RState.mk (some 5) (fun _ => none))
        "st" 0).2).inSkipped "st" 5) ∧
    ((restart_progress_should_run
        ((restart_progress_should_run (RState.mk (some 5) (fun _ => none))
          "st" 0).2) "st" 0).1 = .error .illegalState) ∧
    ((restart_progress_should_run
        ((clear_restart_progress
          ((restart_progress_should_run (RState.mk (some 5) (fun _ => none))
            "st" 0).2) "st").2) "st" 0).1 = .ok false) ∧
    (∀ e ∈ (runSession
        [SessionOp.shouldRun (some 5) "st" 0, SessionOp.clearOp "st",
          SessionOp.shouldRun (some 5) "st" 0]
        (RState.mk (some 5) (fun _ => none))).1,
      e.1 = "st" → e.2.2 ≠ Except.ok true) := by
  have h := retry_zero_retries
  refine ⟨h.1 (RState.mk (some 5) (fun _ => none)) "st" 5 rfl rfl,
    h.2.1 (RState.mk (some 5) (fun _ => none)) "st" 5 rfl rfl,
    h.2.2.1 (RState.mk (some 5) (fun _ => none)) "st" 5 rfl rfl,
    h.2.2.2
      [SessionOp.shouldRun (some 5) "st" 0, SessionOp.clearOp "st",
        SessionOp.shouldRun (some 5) "st" 0]
      (RState.mk (some 5) (fun _ => none)) "st" ?_ (Or.inl rfl)⟩
  intro corpus mr hm
  simp only [List.mem_cons, List.not_mem_nil, or_false] at hm
  rcases hm with hm | hm | hm
  · cases hm
    rfl
  · cases hm
  · cases hm
    rfl

/-- C10: whenever the state's `current_corpus_id()` is `None`,
`RetryRestartHelper::restart_progress_should_run` returns an
illegal-state error (never `Ok`) and leaves the state — in particular
the stage's named `RetryRestartHelper` metadata — completely
untouched. -/
theorem retry_no_corpus_id_illegal_state :
    ∀ (s : RState) (name : String) (mr : Nat),
      s.currentCorpusId = none →
      restart_progress_should_run s name mr = (.error .illegalState, s) := by
  intro s name mr h
  exact shouldRun_eq_no_corpus s name mr h

/-- Witness for C10 at a concrete input. -/
theorem retry_no_corpus_id_illegal_state_witness :
    restart_progress_should_run (RState.mk none (fun _ => none)) "st" 3 =
      (.error .illegalState, RState.mk none (fun _ => none)) :=
  retry_no_corpus_id_illegal_state (RState.mk none (fun _ => none)) "st" 3 rfl

end LibAFL
